import Mathlib

/-!
# Verification of the Vega workflow engine core

Shallow embedding of the Vega workflow-engine core (scheduler gates,
tick manager, graph validator, template resolver, dialogue executor),
translated from the TypeScript sources, together with proofs settling
the specification claims about them.

Source files embedded:
* `src/execution/scheduler.service.ts` (`AgentScheduler`, `TickManager`)
* `packages/agentic-cli/src/utils/parser.ts` (`WorkflowYAMLParser.validate`)
* `docs/CHALLENGES.md` code listings (`detectCycles`, `TemplateResolver`)
* `src/execution/dialogue-executor.service.ts` (`DialogueExecutor`)

Machine integers are modelled as `Nat`/`Int` (all quantities involved are
millisecond counts and list indices, far from any overflow boundary in the
JS double range exercised here); fallible code returns `Except`/`Option`.
-/

namespace Vega

/-! ## JavaScript helpers

Small helpers mirroring JavaScript semantics used across the sources:
string truthiness (`""` is falsy), `x || default` on optional numbers
(`0` is falsy, so it falls back to the default), and `parseInt`. -/

/-- JS truthiness of an optional string field: absent and `""` are falsy. -/
def jsStrTruthy : Option String → Bool
  | none => false
  | some s => s ≠ ""

/-- JS `x || d` for an optional number `x`: absent and `0` fall back to `d`. -/
def jsOrNat : Option Nat → Nat → Nat
  | none, d => d
  | some k, d => if k = 0 then d else k

/-- JS truthiness of an optional number field: absent and `0` are falsy. -/
def jsNatTruthy : Option Nat → Bool
  | none => false
  | some k => k ≠ 0

/-- JS `parseInt` on a trimmed string: optional sign followed by leading
decimal digits; `none` models `NaN` (no digits to parse). -/
def parseIntJS (s : String) : Option Int :=
  match s.data with
  | '-' :: rest => (digitsVal rest).map (fun n => -(n : Int))
  | '+' :: rest => (digitsVal rest).map (fun n => (n : Int))
  | l => (digitsVal l).map (fun n => (n : Int))
where
  /-- Value of the maximal run of leading digits; `none` when there is none. -/
  digitsVal (l : List Char) : Option Nat :=
    let digits := l.takeWhile (·.isDigit)
    if digits.isEmpty then none
    else some (digits.foldl (fun acc c => acc * 10 + (c.toNat - '0'.toNat)) 0)

/-- `String.padStart(2, '0')` as used by `getTimeString` for values `< 100`. -/
def pad2 (n : Nat) : String :=
  if n < 10 then "0" ++ toString n else toString n

/-- Lexicographic `<` on character lists by code point: the JS `<` on
strings (UTF-16 code-unit order; identical on the code points used here). -/
def ltChars : List Char → List Char → Bool
  | [], [] => false
  | [], _ :: _ => true
  | _ :: _, [] => false
  | c :: cs, d :: ds =>
    if c.toNat < d.toNat then true
    else if d.toNat < c.toNat then false
    else ltChars cs ds

/-- JS `a < b` on strings. -/
def jsStrLt (a b : String) : Bool := ltChars a.data b.data

/-- JS `a > b` on strings. -/
def jsStrGt (a b : String) : Bool := ltChars b.data a.data

/-- `split(sep)` for a one-character separator, on character lists. -/
def splitChars (sep : Char) : List Char → List (List Char)
  | [] => [[]]
  | c :: rest =>
    if c = sep then [] :: splitChars sep rest
    else
      match splitChars sep rest with
      | [] => [[c]]
      | h :: t => (c :: h) :: t

/-- `String.prototype.split` with a one-character separator. -/
def splitStr (sep : Char) (s : String) : List String :=
  (splitChars sep s.data).map String.mk

/-- Value of an all-digit string, `none` otherwise (used where the source
feeds `Number`/`parseInt` a digit key; non-digit inputs become `NaN`). -/
def digitsToNat? (s : String) : Option Nat :=
  match s.data with
  | [] => none
  | l =>
    if l.all (·.isDigit) then
      some (l.foldl (fun acc c => acc * 10 + (c.toNat - '0'.toNat)) 0)
    else none

/-- JS `Number` of a `split(':')` time component: `""` is 0, digit strings
their value (non-numeric components become `NaN`, modelled `none`). -/
def numberJS (s : String) : Option Nat :=
  if s.data.isEmpty then some 0 else digitsToNat? s

/-- JS `String.prototype.trim`: strip whitespace from both ends. -/
def trimJS (s : String) : String :=
  String.mk (((s.data.dropWhile Char.isWhitespace).reverse.dropWhile
    Char.isWhitespace).reverse)

/-- `m.slice(2, -2)`: the text between the braces of a `{{...}}` match. -/
def innerText (m : String) : String :=
  let l := m.data.drop 2
  String.mk (l.take (l.length - 2))

end Vega

namespace Vega

/-! ## `AgentScheduler` (src/execution/scheduler.service.ts)

Wall-clock local time is modelled as milliseconds since a reference
Sunday 00:00 in the schedule's timezone; `getDay`/`getHours`/`getMinutes`
/`setHours` are the corresponding `Date` accessors on that wall clock.
The `toLocaleString` timezone conversion itself is not modelled: the
converted local wall time is passed alongside `now` as a parameter
(they coincide for UTC). -/

/-- `AgentSchedule` from `src/types/agent.types.ts` as used by the scheduler. -/
structure AgentSchedule where
  startTime : Option String
  endTime : Option String
  timezone : Option String
  daysOfWeek : Option (List Nat)

/-- Milliseconds in one day. -/
def dayMs : Nat := 86400000

/-- `Date.prototype.getDay` on the modelled wall clock (0 = Sunday). -/
def jsGetDay (t : Nat) : Nat := t / dayMs % 7

/-- `Date.prototype.getHours` on the modelled wall clock. -/
def jsGetHours (t : Nat) : Nat := t % dayMs / 3600000

/-- `Date.prototype.getMinutes` on the modelled wall clock. -/
def jsGetMinutes (t : Nat) : Nat := t % 3600000 / 60000

/-- `AgentScheduler.getTimeString`: format the wall clock as `HH:MM`. -/
def getTimeString (t : Nat) : String :=
  pad2 (jsGetHours t) ++ ":" ++ pad2 (jsGetMinutes t)

/-- `Date.prototype.setHours(h, m, 0, 0)`: same day, given hour and minute. -/
def jsSetHours (t h m : Nat) : Nat :=
  t / dayMs * dayMs + h * 3600000 + m * 60000

/-- `AgentScheduler.isWithinSchedule`, with the current local wall time as a
parameter. Checks, in source order: no restrictions at all; day-of-week
membership; then the `HH:MM` string comparisons against `startTime`/`endTime`. -/
def isWithinSchedule (s : AgentSchedule) (localTime : Nat) : Bool :=
  if !jsStrTruthy s.startTime && !jsStrTruthy s.endTime && s.daysOfWeek.isNone then
    true
  else
    let dayBlocked :=
      match s.daysOfWeek with
      | some days => days.length > 0 && !days.contains (jsGetDay localTime)
      | none => false
    if dayBlocked then false
    else if jsStrTruthy s.startTime || jsStrTruthy s.endTime then
      let currentTime := getTimeString localTime
      if jsStrTruthy s.startTime && jsStrLt currentTime (s.startTime.getD "") then false
      else if jsStrTruthy s.endTime && jsStrGt currentTime (s.endTime.getD "") then false
      else true
    else true

/-- `Number(part)` of one `split(':')` component, defaulted to 0 as by
`parts[i] ?? 0` (non-numeric components are also defaulted; validated
schedules are always `HH:MM`). -/
def timePart (s : String) (i : Nat) : Nat :=
  (((splitStr ':' s).get? i).bind numberJS).getD 0

/-- `AgentScheduler.getWaitTimeMs`, with `now` and the converted local wall
time as parameters. Outside the window with a `startTime` present, it sets
the clock to today's `startTime`, shifts one day forward when that has
already passed, and returns the millisecond delta. -/
def getWaitTimeMs (s : AgentSchedule) (now localTime : Nat) : Int :=
  if isWithinSchedule s localTime then 0
  else if jsStrTruthy s.startTime then
    let st := s.startTime.getD ""
    let hours := timePart st 0
    let minutes := timePart st 1
    let startDate := jsSetHours localTime hours minutes
    let startDate := if startDate < localTime then startDate + dayMs else startDate
    (startDate : Int) - (now : Int)
  else 0

end Vega

namespace Vega

/-! ## `TickManager` (src/execution/scheduler.service.ts)

The two private maps are modelled as functions `String → Option Nat`
(`none` = key absent), timestamps as `Nat` milliseconds. -/

/-- `AgentTickConfig` from `src/types/agent.types.ts`. -/
structure AgentTickConfig where
  enabled : Bool
  intervalMs : Option Nat
  intervalSeconds : Option Nat
  intervalMinutes : Option Nat
  maxTicksPerRound : Option Nat

/-- The `TickManager` instance state: its `tickCounts` and `lastTickTimes` maps. -/
structure TickState where
  tickCounts : String → Option Nat
  lastTickTimes : String → Option Nat

/-- `this.lastTickTimes.get(agentId) || 0` (a recorded time is never 0 here). -/
def TickState.lastTickAt (st : TickState) (agentId : String) : Nat :=
  (st.lastTickTimes agentId).getD 0

/-- `this.tickCounts.get(agentId) || 0`, i.e. `TickManager.getTickCount`. -/
def TickState.roundTicks (st : TickState) (agentId : String) : Nat :=
  (st.tickCounts agentId).getD 0

/-- Effective interval: `tickConfig.intervalMs || 1000`. -/
def effIntervalMs (cfg : AgentTickConfig) : Nat := jsOrNat cfg.intervalMs 1000

/-- `TickManager.shouldExecute`, with `Date.now()` as a parameter. -/
def shouldExecute (st : TickState) (agentId : String) (cfg : AgentTickConfig)
    (now : Nat) : Bool :=
  if !cfg.enabled then true
  else
    let lastTick := st.lastTickAt agentId
    let intervalMs := effIntervalMs cfg
    if (now : Int) - (lastTick : Int) < (intervalMs : Int) then false
    else if jsNatTruthy cfg.maxTicksPerRound then
      if st.roundTicks agentId ≥ cfg.maxTicksPerRound.getD 0 then false else true
    else true

/-- `TickManager.recordTick`: stamp `Date.now()` and bump the round counter. -/
def recordTick (st : TickState) (agentId : String) (now : Nat) : TickState :=
  { tickCounts := fun k =>
      if k = agentId then some (st.roundTicks agentId + 1) else st.tickCounts k
    lastTickTimes := fun k =>
      if k = agentId then some now else st.lastTickTimes k }

/-- `TickManager.resetRound`: zero the round counter for one agent. -/
def resetRound (st : TickState) (agentId : String) : TickState :=
  { st with tickCounts := fun k =>
      if k = agentId then some 0 else st.tickCounts k }

end Vega

namespace Vega

/-! ## `WorkflowYAMLParser.validate` (packages/agentic-cli/src/utils/parser.ts)

The CLI validator works on the raw object produced by the YAML parser;
optional / possibly-missing fields are modelled as `Option`, and the JS
truthiness checks (`!parsed.name`, `!node.id`, `!edge.from`) via
`jsStrTruthy`, under which `""` counts as missing. -/

/-- A raw parsed node as inspected by `validate` (`id`, `ref`). -/
structure ParsedNode where
  id : Option String
  ref : Option String

/-- A raw parsed edge as inspected by `validate` (`from`, `to`). -/
structure ParsedEdge where
  fromId : Option String
  toId : Option String

/-- The raw parsed workflow object, restricted to the fields `validate` reads.
`nodes = none` models a missing or non-array `nodes` field. -/
structure ParsedWorkflow where
  name : Option String
  version : Option String
  nodes : Option (List ParsedNode)
  edges : Option (List ParsedEdge)

/-- One `ValidationError` record (`type`, `message`, `path`). -/
structure ValidationError where
  errType : String
  message : String
  path : Option String
deriving DecidableEq

/-- The per-node loop of `validate`: missing-id / duplicate-id / missing-ref
errors, threading the `nodeIds` set (a list) and the running index. -/
def validateNodes : List ParsedNode → List String → Nat → List ValidationError
  | [], _, _ => []
  | node :: rest, nodeIds, index =>
    (if !jsStrTruthy node.id then
      [⟨"validation", "Node at index " ++ toString index ++ " missing id",
        some ("nodes[" ++ toString index ++ "]")⟩]
     else if nodeIds.contains (node.id.getD "") then
      [⟨"validation", "Duplicate node ID: " ++ node.id.getD "",
        some ("nodes[" ++ toString index ++ "].id")⟩]
     else []) ++
    (if !jsStrTruthy node.ref then
      [⟨"validation",
        "Node " ++ (if jsStrTruthy node.id then node.id.getD "" else toString index) ++
          " missing ref (agent reference)",
        some ("nodes[" ++ toString index ++ "]")⟩]
     else []) ++
    validateNodes rest
      (if !jsStrTruthy node.id then nodeIds else nodeIds ++ [node.id.getD ""])
      (index + 1)

/-- The node-id set used by the edge loop:
`new Set((parsed.nodes || []).map(n => n.id))` plus the `'output'` sentinel.
Nodes with a missing `id` contribute `undefined`, which no string edge
endpoint can equal, so they are dropped here. -/
def declaredIds (p : ParsedWorkflow) : List String :=
  ((p.nodes.getD []).filterMap (·.id)) ++ ["output"]

/-- The per-edge loop of `validate`: missing-endpoint and dangling-endpoint
errors for each edge in order. -/
def validateEdges (p : ParsedWorkflow) : List ParsedEdge → Nat → List ValidationError
  | [], _ => []
  | edge :: rest, index =>
    (if !jsStrTruthy edge.fromId then
      [⟨"validation", "Edge at index " ++ toString index ++ " missing 'from' field",
        some ("edges[" ++ toString index ++ "]")⟩]
     else []) ++
    (if !jsStrTruthy edge.toId then
      [⟨"validation", "Edge at index " ++ toString index ++ " missing 'to' field",
        some ("edges[" ++ toString index ++ "]")⟩]
     else []) ++
    (if jsStrTruthy edge.fromId && !(declaredIds p).contains (edge.fromId.getD "") then
      [⟨"validation", "Edge references non-existent node: " ++ edge.fromId.getD "",
        some ("edges[" ++ toString index ++ "].from")⟩]
     else []) ++
    (if jsStrTruthy edge.toId && !(declaredIds p).contains (edge.toId.getD "") then
      [⟨"validation", "Edge references non-existent node: " ++ edge.toId.getD "",
        some ("edges[" ++ toString index ++ "].to")⟩]
     else []) ++
    validateEdges p rest (index + 1)

/-- `WorkflowYAMLParser.validate`: accumulate every failure across the
required-field checks, the node loop and the edge loop. -/
def validate (p : ParsedWorkflow) : List ValidationError :=
  (if !jsStrTruthy p.name then
    [⟨"validation", "Workflow name is required", none⟩] else []) ++
  (if !jsStrTruthy p.version then
    [⟨"validation", "Workflow version is required", none⟩] else []) ++
  (if p.nodes.isNone then
    [⟨"validation", "Workflow must have nodes array", none⟩] else []) ++
  (match p.nodes with
   | some ns => validateNodes ns [] 0
   | none => []) ++
  (match p.edges with
   | some es => validateEdges p es 0
   | none => [])

/-- The `ParseResult` fields set by `parse` after a syntactically successful
parse: `valid` is true exactly when `validate` reported nothing. -/
structure ParseResult where
  valid : Bool
  errors : List ValidationError

/-- How `parse` turns the accumulated validation errors into a `ParseResult`
(`if (validationErrors.length > 0) return { valid: false, errors }`). -/
def parseResultOf (p : ParsedWorkflow) : ParseResult :=
  { valid := (validate p).length = 0, errors := validate p }

end Vega

namespace Vega

/-! ## `detectCycles` (docs/CHALLENGES.md, workflow validator listing)

Depth-first cycle detection over a spec whose nodes carry a `depends`
list. The two JS `Set`s and the error array are modelled as lists
(`Set.add` = append-if-absent; elements of the modelled sets are unique,
so `Set.delete` = erase). The recursion is fuelled; `cyclesFuel` exceeds
the number of ids ever visitable, so the fuel never runs out (the JS
recursion terminates for the same reason: each nested call is on a
not-yet-visited id, which it immediately marks visited). -/

/-- A node as consumed by `detectCycles`: an id and its `depends` list. -/
structure DepNode where
  id : String
  depends : Option (List String)
deriving DecidableEq

/-- The workflow spec as consumed by `detectCycles`. -/
structure DepSpec where
  nodes : List DepNode

/-- The mutable state of `detectCycles`: `visited`, `recursionStack`, `errors`. -/
structure DfsState where
  visited : List String
  stack : List String
  errors : List String
deriving DecidableEq

/-- JS `Set.prototype.add` on the list model: append if absent. -/
def insertS (l : List String) (x : String) : List String :=
  if l.contains x then l else l ++ [x]

/-- `[...path, depId].join(' → ')` for the cycle error message. -/
def joinArrow (l : List String) : String := String.intercalate " → " l

/-- A pending activation of the `dfs` closure: either a call on a node, or
the remainder of a `for (const depId of dependencies)` loop. -/
inductive DfsCall where
  | visit (nodeId : String) (path : List String)
  | deps (ds : List String) (path : List String)

/-- The `dfs` closure of `detectCycles` (both the call on a node and its
dependency loop), with a fuel argument for structural recursion; the fuel
in `detectCycles` exceeds the call-tree depth, so it is never exhausted.
A `visit` marks the node visited and on the recursion stack, walks its
dependencies, and pops the node from the stack only on the no-cycle
fall-through (the early `return true` paths leave it there, exactly as in
the source). A `deps` step recurses into an unvisited dependency, records
a cycle error when the dependency is already on the recursion stack, and
skips dependencies that are visited but off the stack. -/
def dfsGo (spec : DepSpec) : Nat → DfsCall → DfsState → Bool × DfsState
  | 0, _, st => (false, st)
  | fuel + 1, .visit nodeId path, st =>
    match spec.nodes.find? (fun n => n.id = nodeId) with
    | none =>
      (false, { st with visited := insertS st.visited nodeId
                        stack := insertS st.stack nodeId })
    | some node =>
      match dfsGo spec fuel (.deps (node.depends.getD []) path)
          { st with visited := insertS st.visited nodeId
                    stack := insertS st.stack nodeId } with
      | (true, st2) => (true, st2)
      | (false, st2) => (false, { st2 with stack := st2.stack.erase nodeId })
  | _ + 1, .deps [] _, st => (false, st)
  | fuel + 1, .deps (depId :: rest) path, st =>
    if st.visited.contains depId then
      if st.stack.contains depId then
        (true, { st with errors := st.errors ++
          ["Circular dependency detected: " ++ joinArrow (path ++ [depId])] })
      else dfsGo spec fuel (.deps rest path) st
    else
      match dfsGo spec fuel (.visit depId (path ++ [depId])) st with
      | (true, st') => (true, st')
      | (false, st') => dfsGo spec fuel (.deps rest path) st'

/-- Fuel bound: more than the depth of any `dfs` call tree (at most one
`visit` per distinct id, plus one step per dependency-list element along a
chain). -/
def cyclesFuel (spec : DepSpec) : Nat :=
  2 * (spec.nodes.length + (spec.nodes.map (fun n => (n.depends.getD []).length)).sum) + 4

/-- The `for (const node of spec.nodes)` driver loop of `detectCycles`:
start a DFS at every node not yet visited (so every connected component
is traversed). -/
def detectRun (spec : DepSpec) : List DepNode → DfsState → DfsState
  | [], st => st
  | node :: rest, st =>
    let st' :=
      if st.visited.contains node.id then st
      else (dfsGo spec (cyclesFuel spec) (.visit node.id [node.id]) st).2
    detectRun spec rest st'

/-- The final DFS state of `detectCycles` over a spec. -/
def detectCyclesState (spec : DepSpec) : DfsState :=
  detectRun spec spec.nodes ⟨[], [], []⟩

/-- The `ValidationResult` returned by `detectCycles`. -/
structure CycleResult where
  valid : Bool
  errors : List String
  warnings : List String
deriving DecidableEq

/-- `detectCycles`: run the DFS from every unvisited node and report
`valid` iff no cycle error was recorded. -/
def detectCycles (spec : DepSpec) : CycleResult :=
  { valid := (detectCyclesState spec).errors.isEmpty
    errors := (detectCyclesState spec).errors
    warnings := [] }

end Vega

namespace Vega

/-! ## `TemplateResolver` (docs/CHALLENGES.md listing; used by the dialogue
executor via `utils/template-resolver`)

Context trees are modelled by `JValue` (JSON-like values). The regex
`/\{\{([^}]+)\}\}/g` is modelled by `scanMatches`: at each position, a
match is `{{`, a maximal nonempty run of non-`}` characters, then `}}`
(the character class cannot cross `}`, so backtracking never helps);
`/g` continues after each match and otherwise advances one position. -/

/-- A JSON-like runtime value: the shape of template-resolution contexts. -/
inductive JValue where
  | null
  | bool (b : Bool)
  | num (n : Int)
  | str (s : String)
  | arr (items : List JValue)
  | obj (fields : List (String × JValue))

/-- JS truthiness of a value (`null`, `false`, `0`, `""` are falsy). -/
def jsTruthyJ : JValue → Bool
  | .null => false
  | .bool b => b
  | .num n => n ≠ 0
  | .str s => s ≠ ""
  | .arr _ => true
  | .obj _ => true

mutual

/-- JS `String(value)` for the modelled values (`Array.prototype.toString`
is `join(',')`; a plain object prints `[object Object]`). -/
def jsString : JValue → String
  | .null => "null"
  | .bool b => if b then "true" else "false"
  | .num n => toString n
  | .str s => s
  | .arr items => jsStringArr items
  | .obj _ => "[object Object]"

/-- `Array.prototype.join(',')`: elements stringified, `null` as `""`. -/
def jsStringArr : List JValue → String
  | [] => ""
  | v :: rest =>
    (match v with
     | .null => ""
     | w => jsString w) ++ (if rest.isEmpty then "" else ",") ++ jsStringArr rest

end

/-- The scanning loop for `/\\{\\{([^}]+)\\}\\}/g`, with a fuel argument for
structural recursion: every step moves to a strictly shorter list, so
`length + 1` fuel is never exhausted. At each position a match is `{{`,
a maximal nonempty run of non-`}` characters, then `}}`; `/g` continues
after the match and otherwise advances one position. -/
def scanGo : Nat → List Char → List String
  | 0, _ => []
  | _ + 1, [] => []
  | fuel + 1, '{' :: '{' :: rest =>
    let run := rest.takeWhile (fun c => c ≠ '}')
    let after := rest.drop run.length
    if run.isEmpty then scanGo fuel ('{' :: rest)
    else if after.take 2 = ['}', '}'] then
      ("\x7b\x7b" ++ String.mk run ++ "\x7d\x7d") :: scanGo fuel (after.drop 2)
    else scanGo fuel ('{' :: rest)
  | fuel + 1, _ :: rest => scanGo fuel rest

/-- All matches of `/\\{\\{([^}]+)\\}\\}/g` in a character list, in order. -/
def scanMatches (l : List Char) : List String := scanGo (l.length + 1) l

/-- `String.prototype.replace` with a plain search string: replace the
first occurrence only (`$`-patterns in the replacement are not modelled;
no resolved value here contains them). -/
def replaceFirstAux (pat repl : List Char) : List Char → List Char
  | [] => []
  | c :: rest =>
    if (c :: rest).take pat.length = pat then repl ++ (c :: rest).drop pat.length
    else c :: replaceFirstAux pat repl rest

/-- `resolved.replace(match, str)` on `String`. -/
def replaceFirst (s pat repl : String) : String :=
  String.mk (replaceFirstAux pat.data repl.data s.data)

/-- `index.replace(']', '')`: drop the first occurrence of a character. -/
def removeFirst (s : String) (c : Char) : String :=
  String.mk (go s.data)
where
  go : List Char → List Char
    | [] => []
    | x :: rest => if x = c then rest else x :: go rest

/-- JS property access `v[key]` with a string key: object field lookup,
canonical numeric keys on arrays and strings; primitives have no own
properties here. -/
def propAccess (v : JValue) (key : String) : Option JValue :=
  match v with
  | .obj fields => (fields.find? (fun f => f.1 = key)).map (·.2)
  | .arr items =>
    match digitsToNat? key with
    | some i => if toString i = key then items.get? i else none
    | none => none
  | .str s =>
    match digitsToNat? key with
    | some i =>
      if toString i = key then (s.data.get? i).map (fun c => .str (String.mk [c]))
      else none
    | none => none
  | _ => none

/-- JS indexed access `w[idx]` with a number: array/string element for a
nonnegative in-range index (a negative index is an absent property),
objects via the number's canonical string. -/
def indexAccess (w : JValue) (idx : Int) : Option JValue :=
  match w with
  | .arr items => if idx < 0 then none else items.get? idx.toNat
  | .str s =>
    if idx < 0 then none
    else (s.data.get? idx.toNat).map (fun c => .str (String.mk [c]))
  | .obj fields => (fields.find? (fun f => f.1 = toString idx)).map (·.2)
  | _ => none

/-- The `for (const part of parts)` loop of `getNestedValue`: `none` models
`undefined`; a `null`/`undefined` intermediate yields `undefined`; a part
containing `[` is split into `key` and bracketed index (`parseInt` of the
index with the first `]` removed), evaluated as `current[key]?.[idx]`. -/
def getNestedGo : List String → Option JValue → Option JValue
  | [], cur => cur
  | part :: rest, cur =>
    match cur with
    | none => none
    | some .null => none
    | some v =>
      if part.data.contains '[' then
        let pieces := splitStr '[' part
        let key := pieces.headD ""
        let idxStr := (pieces.get? 1).getD ""
        match propAccess v key with
        | none => getNestedGo rest none
        | some w =>
          match parseIntJS (removeFirst idxStr ']') with
          | none => getNestedGo rest none
          | some idx => getNestedGo rest (indexAccess w idx)
      else getNestedGo rest (propAccess v part)

/-- `TemplateResolver.getNestedValue`: walk the dot-separated path. -/
def getNestedValue (root : JValue) (path : String) : Option JValue :=
  getNestedGo (splitStr '.' path) (some root)

/-- The substitution fold of `resolve` over the matches found once in the
original template: each match's trimmed inner path is looked up; a missing
value raises `Template variable not found`, otherwise the first occurrence
of the match text is replaced by the value's string form. -/
def resolveGo (context : JValue) : List String → String → Except String String
  | [], resolved => .ok resolved
  | m :: rest, resolved =>
    let path := trimJS (innerText m)
    match getNestedValue context path with
    | none => .error ("Template variable not found: " ++ path)
    | some v => resolveGo context rest (replaceFirst resolved m (jsString v))

/-- `TemplateResolver.resolve`: a template with no `{{...}}` match is
returned as-is, otherwise every match is substituted in order. -/
def resolve (template : String) (context : JValue) : Except String String :=
  match scanMatches template.data with
  | [] => .ok template
  | ms => resolveGo context ms template

end Vega

namespace Vega

/-! ## `ExecutionEngine.resolveTemplateString` (CLI executor)

The CLI engine's own resolver: `{{inputs.x}}` reads the workflow inputs,
any other `{{node.key}}` reads a previous node's output; unresolvable
references are left in place rather than raised. -/

/-- A `NodeResult` as consulted by `resolveTemplateString`. -/
structure NodeResultE where
  id : String
  output : Option JValue

/-- Escape `"` and `\` in a JSON string body. -/
def jsonEscape : List Char → String
  | [] => ""
  | c :: rest =>
    (if c = '"' then "\\\"" else if c = '\\' then "\\\\" else String.mk [c]) ++
      jsonEscape rest

mutual

/-- `JSON.stringify` for the modelled values (no `undefined` members occur;
only `"` and `\` are escaped, the only escapes these strings can need). -/
def jsonStringify : JValue → String
  | .null => "null"
  | .bool b => if b then "true" else "false"
  | .num n => toString n
  | .str s => "\"" ++ jsonEscape s.data ++ "\""
  | .arr items => "[" ++ jsonStringifyArr items ++ "]"
  | .obj fields => "\x7b" ++ jsonStringifyObj fields ++ "\x7d"

/-- Comma-joined array members. -/
def jsonStringifyArr : List JValue → String
  | [] => ""
  | v :: rest =>
    jsonStringify v ++ (if rest.isEmpty then "" else ",") ++ jsonStringifyArr rest

/-- Comma-joined quoted object members. -/
def jsonStringifyObj : List (String × JValue) → String
  | [] => ""
  | (k, v) :: rest =>
    "\"" ++ jsonEscape k.data ++ "\":" ++ jsonStringify v ++
      (if rest.isEmpty then "" else ",") ++ jsonStringifyObj rest

end

/-- The substitution loop of `resolveTemplateString`: `inputs.*` references
are replaced when the input key exists; other references look up the named
node's output (whole output, or one key of it when a second path segment is
present and nonempty), strings used directly and other values
`JSON.stringify`-ed; a reference that resolves nowhere leaves the match in
place. -/
def resolveTemplateGo (workflowInputs : List (String × JValue))
    (previousResults : List NodeResultE) : List String → String → String
  | [], resolved => resolved
  | m :: rest, resolved =>
    let path := trimJS (innerText m)
    let parts := splitStr '.' path
    let resolved' :=
      if parts.headD "" = "inputs" then
        -- `const inputKey = parts[1]; if (inputKey in workflowInputs)`
        let inputKey := (parts.get? 1).getD "undefined"
        match workflowInputs.find? (fun f => f.1 = inputKey) with
        | some f => replaceFirst resolved m (jsString f.2)
        | none => resolved
      else
        let nodeId := parts.headD ""
        let outputKey := parts.get? 1
        match previousResults.find? (fun r => r.id = nodeId) with
        | some r =>
          match r.output with
          | some out =>
            if jsTruthyJ out then
              -- `outputKey ? nodeResult.output[outputKey] : nodeResult.output`
              let outputValue :=
                match outputKey with
                | some k => if k ≠ "" then propAccess out k else some out
                | none => some out
              let valueStr :=
                match outputValue with
                | some (.str s) => s
                | some v => jsonStringify v
                | none => "undefined"
              replaceFirst resolved m valueStr
            else resolved
          | none => resolved
        | none => resolved
    resolveTemplateGo workflowInputs previousResults rest resolved'

/-- `ExecutionEngine.resolveTemplateString`: same `match`-or-return-unchanged
guard as `TemplateResolver.resolve`, then the substitution loop. -/
def resolveTemplateString (template : String) (workflowInputs : List (String × JValue))
    (previousResults : List NodeResultE) : String :=
  match scanMatches template.data with
  | [] => template
  | ms => resolveTemplateGo workflowInputs previousResults ms template

end Vega

namespace Vega

/-! ## `DialogueExecutor` (src/execution/dialogue-executor.service.ts)

External collaborators are oracles: the agent registry is
`getAgent : String → Option AgentInfo`, and the A2A transport together
with the response/cost extraction that immediately follows it is
`callAgent : String → String → Except String (String × String)`
(endpoint URL and resolved prompt to response text and cost, or a thrown
error). UUIDs and wall-clock timestamps are generated by the runtime and
carry no information any claim depends on; `turnId` is modelled by a
placeholder and `timestamp` fields are dropped. -/

/-- An agent record as used here: its ref and optional endpoint URL. -/
structure AgentInfo where
  ref : String
  endpointUrl : Option String

/-- A `DialogueTurn` of the workflow types. -/
structure DialogueTurn where
  speaker : String
  prompt : String
  respondTo : Option (List String)

/-- The three dialogue modes. -/
inductive DialogueMode where
  | sequential
  | roundRobin
  | dynamic

/-- `DialogueConfig` of the workflow types. -/
structure DialogueConfig where
  mode : DialogueMode
  participants : List String
  turns : List DialogueTurn
  maxTurns : Option Nat
  endCondition : Option String

/-- `DialogueTurnResult` (timestamp dropped, `turnId` a placeholder). -/
structure DialogueTurnResult where
  turnId : String
  speaker : String
  prompt : String
  response : String
  cost : String

/-- `DialogueContext`: the per-dialogue mutable state. -/
structure DialogueContext where
  turns : List DialogueTurnResult
  participants : List (String × AgentInfo)
  conversationHistory : List String

/-- `arr.slice(-n)`: the last up-to-`n` elements. -/
def lastN (n : Nat) (l : List α) : List α := l.drop (l.length - n)

/-- `DialogueExecutor.getSpeakerName`: token before the first hyphen,
upper-cased, `UNKNOWN` when empty. -/
def getSpeakerName (speakerRef : String) : String :=
  let first := ((splitStr '-' speakerRef).headD "")
  if first = "" then "UNKNOWN" else String.mk (first.data.map Char.toUpper)

/-- A turn result as seen by the template resolver inside `previousTurns`. -/
def turnResultJ (t : DialogueTurnResult) : JValue :=
  .obj [("turnId", .str t.turnId), ("speaker", .str t.speaker),
        ("prompt", .str t.prompt), ("response", .str t.response),
        ("cost", .str t.cost)]

/-- The turn-resolution context
`{...workflowContext, conversationHistory, previousTurns}`; the spread's
later-key-wins override is modelled by putting the overriding bindings
first under first-match field lookup. -/
def turnContextJ (ctx : DialogueContext) (wctx : List (String × JValue)) : JValue :=
  .obj ([("conversationHistory", .arr (ctx.conversationHistory.map .str)),
         ("previousTurns", .arr (ctx.turns.map turnResultJ))] ++ wctx)

/-- `DialogueExecutor.executeTurn`: skip (returning the context unchanged)
when the speaker is not among the resolved participants; otherwise resolve
the prompt, require an endpoint URL, call the agent, and append exactly one
turn result and one `Speaker: response` history line. Thrown errors
(template resolution, missing endpoint, call failure) propagate. -/
def executeTurn (callAgent : String → String → Except String (String × String))
    (turn : DialogueTurn) (ctx : DialogueContext) (wctx : List (String × JValue)) :
    Except String DialogueContext :=
  match (ctx.participants.find? (fun p => p.1 = turn.speaker)).map (·.2) with
  | none => .ok ctx
  | some agent =>
    match resolve turn.prompt (turnContextJ ctx wctx) with
    | .error e => .error e
    | .ok resolvedPrompt =>
    if !jsStrTruthy agent.endpointUrl then
      .error ("Agent " ++ agent.ref ++ " has no endpoint URL configured")
    else
      match callAgent (agent.endpointUrl.getD "") resolvedPrompt with
      | .error e => .error e
      | .ok (response, costRaw) =>
        let turnResult : DialogueTurnResult :=
          { turnId := "uuid", speaker := turn.speaker, prompt := resolvedPrompt
            response := response
            cost := if costRaw = "" then "0" else costRaw }
        .ok { ctx with
              turns := ctx.turns ++ [turnResult]
              conversationHistory := ctx.conversationHistory ++
                [getSpeakerName turn.speaker ++ ": " ++ turnResult.response] }

/-- The end-condition context `{...workflowContext, turnCount, lastResponse}`
(override modelled as in `turnContextJ`). -/
def conditionContextJ (ctx : DialogueContext) (wctx : List (String × JValue)) : JValue :=
  .obj ([("turnCount", .num ctx.turns.length),
         ("lastResponse", .str (match ctx.turns.getLast? with
                                | some t => t.response
                                | none => ""))] ++ wctx)

/-- `DialogueExecutor.shouldEndDialogue`: resolve the end condition and
compare to the literal string `true`; a resolution error means `false`. -/
def shouldEndDialogue (endCondition : String) (ctx : DialogueContext)
    (wctx : List (String × JValue)) : Bool :=
  match resolve endCondition (conditionContextJ ctx wctx) with
  | .ok s => s = "true"
  | .error _ => false

/-- The guard `dialogue.endCondition && this.shouldEndDialogue(...)` at the
head of every mode's loop (`""` is a falsy condition). -/
def endConditionHolds (d : DialogueConfig) (ctx : DialogueContext)
    (wctx : List (String × JValue)) : Bool :=
  match d.endCondition with
  | some c => if c = "" then false else shouldEndDialogue c ctx wctx
  | none => false

/-- `Array.prototype.join` with a separator over modelled values. -/
def joinWith (sep : String) : List JValue → String
  | [] => ""
  | v :: rest =>
    (match v with
     | .null => ""
     | w => jsString w) ++ (if rest.isEmpty then "" else sep) ++ joinWith sep rest

/-- `Object.values` over a modelled value. -/
def objValues : JValue → List JValue
  | .obj fields => fields.map (·.2)
  | .arr items => items
  | .str s => s.data.map (fun c => .str (String.mk [c]))
  | _ => []

/-- `DialogueExecutor.generateDynamicPrompt`: the last three history lines
plus a topic drawn from `workflowContext.inputs` (or the context itself). -/
def generateDynamicPrompt (ctx : DialogueContext)
    (wctx : List (String × JValue)) : String :=
  let recentHistory :=
    String.intercalate "\n" (lastN 3 ctx.conversationHistory)
  let source :=
    match (wctx.find? (fun f => f.1 = "inputs")).map (·.2) with
    | some v => if jsTruthyJ v then objValues v else wctx.map (·.2)
    | none => wctx.map (·.2)
  let joined := joinWith ", " source
  let topic := if joined = "" then "the current topic" else joined
  "Based on the conversation so far:\n" ++ recentHistory ++
    "\n\nPlease provide your perspective on: " ++ topic

/-- `DialogueExecutor.selectNextSpeaker`: first participant not among the
last two speakers, else `participants[0] || ''`. -/
def selectNextSpeaker (participants : List String) (ctx : DialogueContext) : String :=
  let recentSpeakers := (lastN 2 ctx.turns).map (·.speaker)
  match participants.find? (fun p => !recentSpeakers.contains p) with
  | some p => p
  | none => participants.headD ""

/-- `DialogueExecutor.executeSequentialDialogue`'s loop body over the
remaining predefined turns (the `if (!turn) continue` guard is vacuous
here: list elements always exist). -/
def seqLoop (callAgent : String → String → Except String (String × String))
    (d : DialogueConfig) (wctx : List (String × JValue)) :
    List DialogueTurn → DialogueContext → Except String DialogueContext
  | [], ctx => .ok ctx
  | turn :: rest, ctx =>
    if endConditionHolds d ctx wctx then .ok ctx
    else
      match executeTurn callAgent turn ctx wctx with
      | .error e => .error e
      | .ok ctx' => seqLoop callAgent d wctx rest ctx'

/-- `executeSequentialDialogue`: `for (i = 0; i < min(turns.length, maxTurns))`. -/
def executeSequentialDialogue (callAgent : String → String → Except String (String × String))
    (d : DialogueConfig) (ctx : DialogueContext) (wctx : List (String × JValue))
    (maxTurns : Nat) : Except String DialogueContext :=
  seqLoop callAgent d wctx (d.turns.take (min d.turns.length maxTurns)) ctx

/-- `participants[currentIndex % participants.length]` (`% 0` is `NaN`, so
an empty participant list never yields a speaker). -/
def speakerAt (participants : List String) (currentIndex : Nat) : Option String :=
  if participants.isEmpty then none
  else participants.get? (currentIndex % participants.length)

/-- `DialogueExecutor.executeRoundRobinDialogue`'s loop: up to `maxTurns`
iterations, end condition checked first, speaker by index modulo the
participant list, synthetic turn answering the last three turns. -/
def rrLoop (callAgent : String → String → Except String (String × String))
    (d : DialogueConfig) (wctx : List (String × JValue)) :
    Nat → Nat → DialogueContext → Except String DialogueContext
  | 0, _, ctx => .ok ctx
  | k + 1, currentIndex, ctx =>
    if endConditionHolds d ctx wctx then .ok ctx
    else
      match speakerAt d.participants currentIndex with
      | none => rrLoop callAgent d wctx k (currentIndex + 1) ctx
      | some speaker =>
        match executeTurn callAgent
            { speaker := speaker, prompt := generateDynamicPrompt ctx wctx
              respondTo := some ((lastN 3 ctx.turns).map (·.turnId)) } ctx wctx with
        | .error e => .error e
        | .ok ctx' => rrLoop callAgent d wctx k (currentIndex + 1) ctx'

/-- `DialogueExecutor.executeDynamicDialogue`'s loop: up to `maxTurns`
iterations, end condition checked first, next speaker selected among those
who have not spoken in the last two turns; a falsy selection breaks. -/
def dynLoop (callAgent : String → String → Except String (String × String))
    (d : DialogueConfig) (wctx : List (String × JValue)) :
    Nat → DialogueContext → Except String DialogueContext
  | 0, ctx => .ok ctx
  | k + 1, ctx =>
    if endConditionHolds d ctx wctx then .ok ctx
    else
      if selectNextSpeaker d.participants ctx = "" then .ok ctx
      else
        match executeTurn callAgent
            { speaker := selectNextSpeaker d.participants ctx
              prompt := generateDynamicPrompt ctx wctx
              respondTo := some ((lastN 2 ctx.turns).map (·.turnId)) } ctx wctx with
        | .error e => .error e
        | .ok ctx' => dynLoop callAgent d wctx k ctx'

/-- The fields of a workflow node that `executeDialogue` reads. -/
structure WorkflowNode where
  id : String
  name : String
  agentRef : Option String
  dialogue : Option DialogueConfig

/-- `generateDialogueSummary` (start/end timestamps dropped). -/
structure DialogueSummary where
  totalTurns : Nat
  participants : List String
  conversationHistory : List String

/-- The `NodeRun` fields produced by `executeDialogue`. `nodeRunId` (a
UUID) and the timestamps are dropped; the `cost` fold
(`parseFloat`-sum of the turn costs, a JS floating-point computation) is
represented by the list of per-turn cost strings it folds over. -/
structure NodeRun where
  runId : String
  nodeId : String
  agentRef : String
  status : String
  inputs : List (String × JValue)
  outputTurns : List DialogueTurnResult
  outputHistory : List String
  summary : DialogueSummary
  turnCosts : List String
  retryCount : Nat
  logs : List String

/-- `x || d` on strings (`""` falsy). -/
def jsOrStr : Option String → String → String
  | none, d => d
  | some s, d => if s = "" then d else s

/-- The `switch (dialogue.mode)` of `executeDialogue`: run the mode's loop. -/
def runDialogueLoop (callAgent : String → String → Except String (String × String))
    (dialogue : DialogueConfig) (ctx0 : DialogueContext)
    (wctx : List (String × JValue)) (maxTurns : Nat) :
    Except String DialogueContext :=
  match dialogue.mode with
  | .sequential => executeSequentialDialogue callAgent dialogue ctx0 wctx maxTurns
  | .roundRobin => rrLoop callAgent dialogue wctx maxTurns 0 ctx0
  | .dynamic => dynLoop callAgent dialogue wctx maxTurns ctx0

/-- `DialogueExecutor.executeDialogue`: require a dialogue config, resolve
the participants through the registry (unresolvable refs are dropped), run
the mode's loop up to `maxTurns || turns.length`, and pack the `NodeRun`
with status `completed` and `retryCount` 0. Any error thrown underneath
propagates; no failed `NodeRun` is ever constructed. -/
def executeDialogue (getAgent : String → Option AgentInfo)
    (callAgent : String → String → Except String (String × String))
    (node : WorkflowNode) (wctx : List (String × JValue)) (runId : String) :
    Except String NodeRun :=
  match node.dialogue with
  | none => .error "No dialogue configuration found"
  | some dialogue =>
    match runDialogueLoop callAgent dialogue
        ⟨[], dialogue.participants.filterMap
              (fun r => (getAgent r).map (fun a => (r, a))), []⟩
        wctx (jsOrNat dialogue.maxTurns dialogue.turns.length) with
    | .error e => .error e
    | .ok finalCtx =>
      .ok { runId := runId
            nodeId := node.id
            agentRef := jsOrStr node.agentRef "dialogue"
            status := "completed"
            inputs := wctx
            outputTurns := finalCtx.turns
            outputHistory := finalCtx.conversationHistory
            summary := { totalTurns := finalCtx.turns.length
                         participants := finalCtx.participants.map (·.1)
                         conversationHistory := finalCtx.conversationHistory }
            turnCosts := finalCtx.turns.map (·.cost)
            retryCount := 0
            logs := ["Completed " ++ toString finalCtx.turns.length ++ " dialogue turns"] }

end Vega

namespace Vega

/-! ## Fixtures and claim theorems -/

/-- The spec's schedule fixture: 09:00–17:00, Monday–Friday, UTC. -/
def satSchedule : AgentSchedule :=
  ⟨some "09:00", some "17:00", some "UTC", some [1, 2, 3, 4, 5]⟩

/-- Saturday 20:00 on the modelled wall clock (epoch is a Sunday 00:00). -/
def satNow : Nat := 6 * dayMs + 20 * 3600000

set_option maxRecDepth 4000 in
/-- C1. The spec says `getWaitTimeMs` for the Mon–Fri 09:00–17:00 window at
Saturday 20:00 is the delta to Monday 09:00 (the next `startTime` on a day
matching `daysOfWeek`). The code never consults `daysOfWeek` here: it
returns the delta to *Sunday* 09:00 (46,800,000 ms, not 133,200,000 ms),
an instant at which the schedule is still inactive — contradicting the
function's own purpose of waiting until the schedule becomes active —
while Monday 09:00 would be within the window. -/
theorem getWaitTimeMs_saturday_code_bug :
    isWithinSchedule satSchedule satNow = false ∧
    getWaitTimeMs satSchedule satNow satNow = 46800000 ∧
    getWaitTimeMs satSchedule satNow satNow ≠ 133200000 ∧
    isWithinSchedule satSchedule (satNow + 46800000) = false ∧
    isWithinSchedule satSchedule (satNow + 133200000) = true := by
  refine ⟨?_, ?_, ?_, ?_, ?_⟩ <;> decide

/-- C5. `shouldExecute` returns `false` exactly when ticking is enabled and
either the effective interval (`intervalMs || 1000`) has not yet elapsed
since the agent's last recorded tick, or `maxTicksPerRound` is configured
(present and nonzero) and the agent's round tick count has reached it; in
every other case — including `enabled = false` — it returns `true`. -/
theorem shouldExecute_false_iff (st : TickState) (agentId : String)
    (cfg : AgentTickConfig) (now : Nat) :
    shouldExecute st agentId cfg now = false ↔
      (cfg.enabled = true ∧
        ((now : Int) - (st.lastTickAt agentId : Int) < (effIntervalMs cfg : Int) ∨
          (jsNatTruthy cfg.maxTicksPerRound = true ∧
            st.roundTicks agentId ≥ cfg.maxTicksPerRound.getD 0))) := by
  unfold shouldExecute
  cases h : cfg.enabled
  · simp [h]
  · simp only [h, Bool.not_true, Bool.false_eq_true, if_false, true_and]
    split_ifs with h1 h2 h3 <;> simp_all

/-- C8. `resetRound agentId` sets that agent's round tick count to zero,
leaves its `lastTickAt` unchanged, leaves both maps unchanged at every
other key, and a `shouldExecute` call right afterwards is still blocked by
the interval check (even though the `maxTicksPerRound` check now passes). -/
theorem resetRound_zeroes_counter_only (st : TickState) (agentId k : String)
    (cfg : AgentTickConfig) (now : Nat) (hk : k ≠ agentId)
    (hen : cfg.enabled = true)
    (hlt : (now : Int) - (st.lastTickAt agentId : Int) < (effIntervalMs cfg : Int)) :
    (resetRound st agentId).tickCounts agentId = some 0 ∧
    (resetRound st agentId).lastTickTimes agentId = st.lastTickTimes agentId ∧
    (resetRound st agentId).tickCounts k = st.tickCounts k ∧
    (resetRound st agentId).lastTickTimes k = st.lastTickTimes k ∧
    shouldExecute (resetRound st agentId) agentId cfg now = false := by
  unfold resetRound shouldExecute TickState.lastTickAt at *
  simp [hk, hen]
  intro h
  omega

/-- A concrete `TickManager` state: agent `a` last ticked at 1000 ms with
3 ticks this round; no state for any other key. -/
def tickSt0 : TickState :=
  ⟨fun k => if k = "a" then some 3 else none,
   fun k => if k = "a" then some 1000 else none⟩

/-- Tick config: enabled, 5000 ms interval, 3 ticks per round. -/
def tickCfg0 : AgentTickConfig := ⟨true, some 5000, none, none, some 3⟩

/-- Witness for C8 at agent `a`, other key `b`, `now` = 1500 ms. -/
theorem resetRound_zeroes_counter_only_witness :
    (resetRound tickSt0 "a").tickCounts "a" = some 0 ∧
    (resetRound tickSt0 "a").lastTickTimes "a" = tickSt0.lastTickTimes "a" ∧
    (resetRound tickSt0 "a").tickCounts "b" = tickSt0.tickCounts "b" ∧
    (resetRound tickSt0 "a").lastTickTimes "b" = tickSt0.lastTickTimes "b" ∧
    shouldExecute (resetRound tickSt0 "a") "a" tickCfg0 1500 = false :=
  resetRound_zeroes_counter_only tickSt0 "a" "b" tickCfg0 1500
    (by decide) (by decide) (by decide)

end Vega

namespace Vega

/-- A template fragment `{{` occurs somewhere in the character list. -/
def hasBrace : List Char → Bool
  | [] => false
  | c :: rest => (decide (c = '{') && decide (rest.headD 'x' = '{')) || hasBrace rest

/-- Without any `{{` the scanning loop finds no match, whatever the fuel. -/
theorem scanGo_nil_of_no_brace : ∀ fuel l, hasBrace l = false → scanGo fuel l = [] := by
  intro fuel
  induction fuel with
  | zero => intro l _; rfl
  | succ n ih =>
    intro l hb
    unfold scanGo
    split
    · rfl
    · rfl
    · exfalso
      simp [hasBrace] at hb
    · rename_i fuel' hd tl hguard heq
      obtain rfl : fuel' = n := by omega
      apply ih
      simp [hasBrace] at hb
      exact hb.2

/-- Without any `{{` the regex scan finds no match. -/
theorem scanMatches_nil_of_no_brace (l : List Char) (h : hasBrace l = false) :
    scanMatches l = [] :=
  scanGo_nil_of_no_brace (l.length + 1) l h

/-- The scratch context used by the resolver witnesses:
`{history: ["x","y","z"]}`. -/
def historyCtx : JValue := .obj [("history", .arr [.str "x", .str "y", .str "z"])]

/-- C7. A template in which `{{` never occurs is returned unchanged by both
resolvers — `TemplateResolver.resolve` (which finds no regex match and
returns its input) and `ExecutionEngine.resolveTemplateString` — for every
context, workflow-input map and previous-result list. -/
theorem resolve_no_markers_unchanged (t : String) (ctx : JValue)
    (wIn : List (String × JValue)) (prev : List NodeResultE)
    (h : hasBrace t.data = false) :
    resolve t ctx = .ok t ∧ resolveTemplateString t wIn prev = t := by
  unfold resolve resolveTemplateString
  rw [scanMatches_nil_of_no_brace t.data h]
  exact ⟨rfl, rfl⟩

/-- Witness for C7: `resolve("plain text", ctx) == "plain text"`. -/
theorem resolve_no_markers_unchanged_witness :
    resolve "plain text" historyCtx = .ok "plain text" ∧
    resolveTemplateString "plain text" [] [] = "plain text" :=
  resolve_no_markers_unchanged "plain text" historyCtx [] [] (by decide)

end Vega

namespace Vega

set_option maxRecDepth 40000 in
/-- C3 counterexample. With `history = ["x","y","z"]` in the context,
`resolve("{{history[-1]}}", ctx)` does not return `"z"`: JS arrays have no
negative indices (`arr[-1]` is an absent property), so `getNestedValue`
yields `undefined` and `resolve` throws `Template variable not found`. -/
theorem resolve_negative_index_counterexample :
    resolve "\x7b\x7bhistory[-1]\x7d\x7d" historyCtx ≠ .ok "z" ∧
    resolve "\x7b\x7bhistory[-1]\x7d\x7d" historyCtx =
      .error "Template variable not found: history[-1]" := by
  constructor
  · intro h
    rw [show resolve "\x7b\x7bhistory[-1]\x7d\x7d" historyCtx =
          .error "Template variable not found: history[-1]" from rfl] at h
    exact Except.noConfusion h
  · rfl

set_option maxRecDepth 40000 in
/-- C3 amended. For every context in which `history` is the sequence
`["x","y","z"]`, `resolve("{{history[-1]}}", ctx)` fails with
`Template variable not found: history[-1]`: a bracketed negative integer
index selects no element of a sequence. Bracketed indices select only
nonnegative positions counting from the start: `history[0]` is `"x"` and
`history[2]` is the last element `"z"`. -/
theorem resolve_negative_index_amended (restFields : List (String × JValue)) :
    resolve "\x7b\x7bhistory[-1]\x7d\x7d"
        (.obj (("history", .arr [.str "x", .str "y", .str "z"]) :: restFields)) =
      .error "Template variable not found: history[-1]" ∧
    resolve "\x7b\x7bhistory[0]\x7d\x7d"
        (.obj (("history", .arr [.str "x", .str "y", .str "z"]) :: restFields)) =
      .ok "x" ∧
    resolve "\x7b\x7bhistory[2]\x7d\x7d"
        (.obj (("history", .arr [.str "x", .str "y", .str "z"]) :: restFields)) =
      .ok "z" := by
  exact ⟨rfl, rfl, rfl⟩

end Vega

namespace Vega

/-- C6. In every dialogue mode the end condition is evaluated at the head of
the loop, before the turn: `shouldEndDialogue` holds exactly when resolving
`endCondition` against `{turnCount, lastResponse, ...workflow context}`
returns the literal string `"true"` (so a resolution error counts as the
condition not holding and the dialogue continues), and when it holds each
mode's loop stops immediately, executing no further turn — whatever the
agent transport would have answered. -/
theorem endCondition_literal_true_stops (cond : String) (ctx : DialogueContext)
    (wctx : List (String × JValue)) (d : DialogueConfig)
    (callAgent : String → String → Except String (String × String))
    (turn : DialogueTurn) (rest : List DialogueTurn) (k idx : Nat)
    (hcond : d.endCondition = some cond) (hc : cond ≠ "")
    (hstop : shouldEndDialogue cond ctx wctx = true) :
    (shouldEndDialogue cond ctx wctx = true ↔
      resolve cond (conditionContextJ ctx wctx) = .ok "true") ∧
    seqLoop callAgent d wctx (turn :: rest) ctx = .ok ctx ∧
    rrLoop callAgent d wctx (k + 1) idx ctx = .ok ctx ∧
    dynLoop callAgent d wctx (k + 1) ctx = .ok ctx := by
  have hiff : shouldEndDialogue cond ctx wctx = true ↔
      resolve cond (conditionContextJ ctx wctx) = .ok "true" := by
    unfold shouldEndDialogue
    split
    · rename_i s heq
      simp [heq]
    · rename_i e heq
      simp [heq]
  have holds : endConditionHolds d ctx wctx = true := by
    unfold endConditionHolds
    rw [hcond]
    simp [hc, hstop]
  exact ⟨hiff, by simp [seqLoop, holds], by simp [rrLoop, holds], by simp [dynLoop, holds]⟩

/-- An empty dialogue context. -/
def ctxEmpty : DialogueContext := ⟨[], [], []⟩

/-- A workflow context carrying `stop = "true"`. -/
def wctxStop : List (String × JValue) := [("stop", .str "true")]

/-- A dialogue whose end condition resolves `stop`. -/
def dStop : DialogueConfig := ⟨.sequential, [], [], none, some "\x7b\x7bstop\x7d\x7d"⟩

/-- A transport oracle that fails if it is ever consulted. -/
def failCall : String → String → Except String (String × String) :=
  fun _ _ => .error "called"

/-- Witness for C6: with `stop = "true"` the condition holds and all three
loops stop without consulting the (failing) transport. -/
theorem endCondition_literal_true_stops_witness :
    (shouldEndDialogue "\x7b\x7bstop\x7d\x7d" ctxEmpty wctxStop = true ↔
      resolve "\x7b\x7bstop\x7d\x7d" (conditionContextJ ctxEmpty wctxStop) = .ok "true") ∧
    seqLoop failCall dStop wctxStop [⟨"s", "p", none⟩] ctxEmpty = .ok ctxEmpty ∧
    rrLoop failCall dStop wctxStop (4 + 1) 0 ctxEmpty = .ok ctxEmpty ∧
    dynLoop failCall dStop wctxStop (4 + 1) ctxEmpty = .ok ctxEmpty :=
  endCondition_literal_true_stops "\x7b\x7bstop\x7d\x7d" ctxEmpty wctxStop dStop
    failCall ⟨"s", "p", none⟩ [] 4 0 rfl (by decide) rfl

/-- C10. Whenever `executeDialogue` returns without throwing, the `NodeRun`
it returns has status `completed` and `retryCount` 0, however many turns
actually ran: a failed status is never constructed, failures only
propagate as thrown errors. -/
theorem executeDialogue_always_completed (getAgent : String → Option AgentInfo)
    (callAgent : String → String → Except String (String × String))
    (node : WorkflowNode) (wctx : List (String × JValue)) (runId : String)
    (nr : NodeRun)
    (h : executeDialogue getAgent callAgent node wctx runId = .ok nr) :
    nr.status = "completed" ∧ nr.retryCount = 0 := by
  unfold executeDialogue at h
  split at h
  · exact Except.noConfusion h
  · split at h
    · exact Except.noConfusion h
    · injection h with h2
      rw [← h2]
      exact ⟨rfl, rfl⟩

end Vega

namespace Vega

/-- A dialogue node whose single predefined speaker resolves to no
participant (the registry is empty). -/
def emptyDialogueNode : WorkflowNode :=
  ⟨"n0", "Dialogue", none,
   some ⟨.sequential, ["ghost"], [⟨"ghost", "p", none⟩], none, none⟩⟩

/-- The `NodeRun` produced by running `emptyDialogueNode` with no
resolvable participants: completed, zero turns. -/
def nr0 : NodeRun :=
  ⟨"r0", "n0", "dialogue", "completed", [], [], [], ⟨0, [], []⟩, [], 0,
   ["Completed 0 dialogue turns"]⟩

/-- Witness for C10: a dialogue in which zero participants resolved (and so
zero turns ran) still yields a `completed` `NodeRun` with `retryCount` 0. -/
theorem executeDialogue_always_completed_witness :
    nr0.status = "completed" ∧ nr0.retryCount = 0 :=
  executeDialogue_always_completed (fun _ => none) failCall emptyDialogueNode []
    "r0" nr0 (by rfl)

/-- What one `executeTurn` does to the context: a speaker not among the
resolved participants appends nothing (the context is unchanged), and a
successfully executed turn appends exactly one turn result to `turns` and
exactly one `Speaker: response` line to `conversationHistory`. -/
theorem executeTurn_cases (callAgent : String → String → Except String (String × String))
    (turn : DialogueTurn) (ctx : DialogueContext) (wctx : List (String × JValue))
    (ctx' : DialogueContext)
    (h : executeTurn callAgent turn ctx wctx = .ok ctx') :
    (ctx.participants.find? (fun p => p.1 = turn.speaker) = none ∧ ctx' = ctx) ∨
    (∃ tr, ctx'.turns = ctx.turns ++ [tr] ∧
      ctx'.conversationHistory = ctx.conversationHistory ++
        [getSpeakerName turn.speaker ++ ": " ++ tr.response] ∧
      ctx'.participants = ctx.participants) := by
  unfold executeTurn at h
  split at h
  · rename_i heq
    left
    refine ⟨?_, ?_⟩
    · exact Option.map_eq_none'.mp heq
    · injection h with h2
      exact h2.symm
  · split at h
    · exact Except.noConfusion h
    · split at h
      · exact Except.noConfusion h
      · split at h
        · exact Except.noConfusion h
        · right
          injection h with h2
          rw [← h2]
          exact ⟨_, rfl, rfl, rfl⟩

/-- The length invariant `|turns| = |conversationHistory|` is preserved by
one `executeTurn`. -/
theorem executeTurn_len (callAgent : String → String → Except String (String × String))
    (turn : DialogueTurn) (ctx : DialogueContext) (wctx : List (String × JValue))
    (ctx' : DialogueContext)
    (h : executeTurn callAgent turn ctx wctx = .ok ctx')
    (hinv : ctx.turns.length = ctx.conversationHistory.length) :
    ctx'.turns.length = ctx'.conversationHistory.length := by
  rcases executeTurn_cases callAgent turn ctx wctx ctx' h with ⟨_, rfl⟩ | ⟨tr, h1, h2, _⟩
  · exact hinv
  · rw [h1, h2]
    simp [hinv]

/-- The length invariant is preserved by the sequential loop. -/
theorem seqLoop_len (callAgent : String → String → Except String (String × String))
    (d : DialogueConfig) (wctx : List (String × JValue)) :
    ∀ (turns : List DialogueTurn) (ctx ctx' : DialogueContext),
      seqLoop callAgent d wctx turns ctx = .ok ctx' →
      ctx.turns.length = ctx.conversationHistory.length →
      ctx'.turns.length = ctx'.conversationHistory.length := by
  intro turns
  induction turns with
  | nil =>
    intro ctx ctx' h hinv
    injection h with h2
    rw [← h2]
    exact hinv
  | cons t rest ih =>
    intro ctx ctx' h hinv
    unfold seqLoop at h
    split at h
    · injection h with h2
      rw [← h2]
      exact hinv
    · split at h
      · exact Except.noConfusion h
      · rename_i cmid heq
        exact ih cmid ctx' h (executeTurn_len callAgent t ctx wctx cmid heq hinv)

/-- The length invariant is preserved by the round-robin loop. -/
theorem rrLoop_len (callAgent : String → String → Except String (String × String))
    (d : DialogueConfig) (wctx : List (String × JValue)) :
    ∀ (k idx : Nat) (ctx ctx' : DialogueContext),
      rrLoop callAgent d wctx k idx ctx = .ok ctx' →
      ctx.turns.length = ctx.conversationHistory.length →
      ctx'.turns.length = ctx'.conversationHistory.length := by
  intro k
  induction k with
  | zero =>
    intro idx ctx ctx' h hinv
    injection h with h2
    rw [← h2]
    exact hinv
  | succ n ih =>
    intro idx ctx ctx' h hinv
    unfold rrLoop at h
    split at h
    · injection h with h2
      rw [← h2]
      exact hinv
    · split at h
      · exact ih _ ctx ctx' h hinv
      · split at h
        · exact Except.noConfusion h
        · rename_i speaker _ cmid heq
          exact ih _ cmid ctx' h (executeTurn_len callAgent _ ctx wctx cmid heq hinv)

/-- The length invariant is preserved by the dynamic loop. -/
theorem dynLoop_len (callAgent : String → String → Except String (String × String))
    (d : DialogueConfig) (wctx : List (String × JValue)) :
    ∀ (k : Nat) (ctx ctx' : DialogueContext),
      dynLoop callAgent d wctx k ctx = .ok ctx' →
      ctx.turns.length = ctx.conversationHistory.length →
      ctx'.turns.length = ctx'.conversationHistory.length := by
  intro k
  induction k with
  | zero =>
    intro ctx ctx' h hinv
    injection h with h2
    rw [← h2]
    exact hinv
  | succ n ih =>
    intro ctx ctx' h hinv
    unfold dynLoop at h
    split at h
    · injection h with h2
      rw [← h2]
      exact hinv
    · split at h
      · injection h with h2
        rw [← h2]
        exact hinv
      · split at h
        · exact Except.noConfusion h
        · rename_i cmid heq
          exact ih cmid ctx' h (executeTurn_len callAgent _ ctx wctx cmid heq hinv)

/-- C9. The per-dialogue `turns` and `conversationHistory` lists stay in
sync: whenever `executeDialogue` returns a `NodeRun`, its turn list and
history have equal length, because a successfully executed turn appends
exactly one turn result and exactly one formatted `Speaker: response`
line, while a turn whose speaker is not among the resolved participants
appends to neither list. -/
theorem dialogue_turns_history_in_sync (getAgent : String → Option AgentInfo)
    (callAgent : String → String → Except String (String × String))
    (node : WorkflowNode) (wctx : List (String × JValue)) (runId : String)
    (nr : NodeRun) (turn2 : DialogueTurn) (ctx2 ctx2' : DialogueContext)
    (wctx2 : List (String × JValue))
    (h1 : executeDialogue getAgent callAgent node wctx runId = .ok nr)
    (h2 : executeTurn callAgent turn2 ctx2 wctx2 = .ok ctx2') :
    nr.outputTurns.length = nr.outputHistory.length ∧
    ((ctx2.participants.find? (fun p => p.1 = turn2.speaker) = none ∧ ctx2' = ctx2) ∨
      (∃ tr, ctx2'.turns = ctx2.turns ++ [tr] ∧
        ctx2'.conversationHistory = ctx2.conversationHistory ++
          [getSpeakerName turn2.speaker ++ ": " ++ tr.response] ∧
        ctx2'.participants = ctx2.participants)) := by
  refine ⟨?_, executeTurn_cases callAgent turn2 ctx2 wctx2 ctx2' h2⟩
  unfold executeDialogue at h1
  split at h1
  · exact Except.noConfusion h1
  · rename_i dialogue hdlg
    split at h1
    · exact Except.noConfusion h1
    · rename_i finalCtx hloop
      have hfc : finalCtx.turns.length = finalCtx.conversationHistory.length := by
        revert hloop
        unfold runDialogueLoop
        split
        · intro hloop
          exact seqLoop_len callAgent dialogue wctx _ _ _ hloop rfl
        · intro hloop
          exact rrLoop_len callAgent dialogue wctx _ _ _ _ hloop rfl
        · intro hloop
          exact dynLoop_len callAgent dialogue wctx _ _ _ hloop rfl
      injection h1 with h3
      rw [← h3]
      exact hfc

/-- Witness for C9: the zero-participant run keeps the lists in sync (both
empty), and an `executeTurn` whose speaker resolves to no participant
appends to neither list. -/
theorem dialogue_turns_history_in_sync_witness :
    nr0.outputTurns.length = nr0.outputHistory.length ∧
    ((ctxEmpty.participants.find? (fun p => p.1 = DialogueTurn.speaker ⟨"ghost", "p", none⟩) = none ∧
        ctxEmpty = ctxEmpty) ∨
      (∃ tr, ctxEmpty.turns = ctxEmpty.turns ++ [tr] ∧
        ctxEmpty.conversationHistory = ctxEmpty.conversationHistory ++
          [getSpeakerName (DialogueTurn.speaker ⟨"ghost", "p", none⟩) ++ ": " ++ tr.response] ∧
        ctxEmpty.participants = ctxEmpty.participants)) :=
  dialogue_turns_history_in_sync (fun _ => none) failCall emptyDialogueNode []
    "r0" nr0 ⟨"ghost", "p", none⟩ ctxEmpty ctxEmpty [] (by rfl) (by rfl)

end Vega

namespace Vega

/-- `l` starts with `pat` (character lists). -/
def startsWithL : List Char → List Char → Bool
  | _, [] => true
  | [], _ :: _ => false
  | c :: cs, d :: ds => c = d && startsWithL cs ds

/-- `pat` occurs contiguously somewhere in `l`. -/
def hasSubL : List Char → List Char → Bool
  | [], pat => pat.isEmpty
  | c :: rest, pat => startsWithL (c :: rest) pat || hasSubL rest pat

/-- `sub` is a contiguous substring of `s`. -/
def hasSubstr (s sub : String) : Bool := hasSubL s.data sub.data

/-- The error string names `A`, `B`, `C` consecutively in cycle order
(any rotation of the cycle `A → B → C → A`). -/
def mentionsCycleOrderABC (e : String) : Bool :=
  hasSubstr e "A → B → C" || hasSubstr e "B → C → A" || hasSubstr e "C → A → B"

/-- The spec's cycle fixture: `A → B`, `B → C`, `C → A` as `depends` edges. -/
def cyc3Spec : DepSpec :=
  ⟨[⟨"A", some ["B"]⟩, ⟨"B", some ["C"]⟩, ⟨"C", some ["A"]⟩]⟩

/-- The same cycle in a component disconnected from the entry node `D`. -/
def cycDiscSpec : DepSpec :=
  ⟨[⟨"D", none⟩, ⟨"A", some ["B"]⟩, ⟨"B", some ["C"]⟩, ⟨"C", some ["A"]⟩]⟩

/-- A spec containing the cycle `A → B, B → C, C → A` *plus* a self-loop
`E → E`, ordered so that the DFS reaches `E` first from several roots. -/
def cycAdvSpec : DepSpec :=
  ⟨[⟨"E", some ["E"]⟩, ⟨"C", some ["A"]⟩, ⟨"A", some ["E", "B"]⟩, ⟨"B", some ["C"]⟩]⟩

set_option maxRecDepth 40000 in
/-- C2 counterexample. `cycAdvSpec` contains the cycle `A → B, B → C, C → A`
(first three conjuncts), and `detectCycles` does fail on it — but *none* of
its reported error strings contains `A`, `B`, `C` in cycle order: the
self-loop `E → E` is found first and aborts each DFS early (the recursion
stack is never popped on the early `return true` path), so the later
errors are `C → A → E` and the spurious `B → C`. -/
theorem detectCycles_cycle_order_counterexample :
    ((cycAdvSpec.nodes.find? (fun n => n.id = "A")).map
        (fun n => (n.depends.getD []).contains "B") = some true) ∧
    ((cycAdvSpec.nodes.find? (fun n => n.id = "B")).map
        (fun n => (n.depends.getD []).contains "C") = some true) ∧
    ((cycAdvSpec.nodes.find? (fun n => n.id = "C")).map
        (fun n => (n.depends.getD []).contains "A") = some true) ∧
    (detectCycles cycAdvSpec).valid = false ∧
    (detectCycles cycAdvSpec).errors.any mentionsCycleOrderABC = false := by
  refine ⟨?_, ?_, ?_, ?_, ?_⟩ <;> decide

/-- Everything already visited stays visited across any `dfsGo` call. -/
theorem dfsGo_visited_mono (spec : DepSpec) :
    ∀ (fuel : Nat) (call : DfsCall) (st : DfsState),
      st.visited ⊆ (dfsGo spec fuel call st).2.visited := by
  intro fuel
  induction fuel with
  | zero => intro call st; exact List.Subset.refl _
  | succ n ih =>
    intro call st
    cases call with
    | visit nodeId path =>
      have hins : st.visited ⊆ insertS st.visited nodeId := by
        unfold insertS
        split
        · exact List.Subset.refl _
        · exact List.subset_append_left _ _
      unfold dfsGo
      split
      · exact hins
      · rename_i a1 nd hfind
        split
        · rename_i a2 st2 heq
          have := ih (.deps (nd.depends.getD []) path)
            { st with visited := insertS st.visited nodeId
                      stack := insertS st.stack nodeId }
          rw [heq] at this
          exact hins.trans this
        · rename_i a2 st2 heq
          have := ih (.deps (nd.depends.getD []) path)
            { st with visited := insertS st.visited nodeId
                      stack := insertS st.stack nodeId }
          rw [heq] at this
          exact hins.trans this
    | deps ds path =>
      cases ds with
      | nil => exact List.Subset.refl _
      | cons depId rest =>
        unfold dfsGo
        split
        · split
          · exact List.Subset.refl _
          · exact ih (.deps rest path) st
        · split
          · rename_i st' heq
            have := ih (.visit depId (path ++ [depId])) st
            rw [heq] at this
            exact this
          · rename_i st' heq
            have h1 := ih (.visit depId (path ++ [depId])) st
            rw [heq] at h1
            exact h1.trans (ih (.deps rest path) st')

/-- `x ∈ insertS l x`. -/
theorem insertS_mem_self (l : List String) (x : String) : x ∈ insertS l x := by
  unfold insertS
  split
  · rename_i h
    exact List.mem_of_elem_eq_true h
  · exact List.mem_append_right _ (List.mem_singleton.mpr rfl)

/-- A visited `dfsGo` call with nonzero fuel marks its node visited. -/
theorem dfsGo_visit_self (spec : DepSpec) (n : Nat) (nodeId : String)
    (path : List String) (st : DfsState) :
    nodeId ∈ (dfsGo spec (n + 1) (.visit nodeId path) st).2.visited := by
  have hmem : nodeId ∈ insertS st.visited nodeId := insertS_mem_self _ _
  unfold dfsGo
  split
  · exact hmem
  · rename_i a1 nd hfind
    split
    · rename_i a2 st2 heq
      have := dfsGo_visited_mono spec n (.deps (nd.depends.getD []) path)
        { st with visited := insertS st.visited nodeId
                  stack := insertS st.stack nodeId }
      rw [heq] at this
      exact this hmem
    · rename_i a2 st2 heq
      have := dfsGo_visited_mono spec n (.deps (nd.depends.getD []) path)
        { st with visited := insertS st.visited nodeId
                  stack := insertS st.stack nodeId }
      rw [heq] at this
      exact this hmem

/-- The driver loop only grows the visited set. -/
theorem detectRun_visited_mono (spec : DepSpec) :
    ∀ (nodes : List DepNode) (st : DfsState),
      st.visited ⊆ (detectRun spec nodes st).visited := by
  intro nodes
  induction nodes with
  | nil => intro st; exact List.Subset.refl _
  | cons node rest ih =>
    intro st
    unfold detectRun
    split
    · exact ih st
    · exact (dfsGo_visited_mono spec (cyclesFuel spec) _ st).trans (ih _)

/-- After the driver loop, every node of the processed list is visited. -/
theorem detectRun_all_visited (spec : DepSpec) :
    ∀ (nodes : List DepNode) (st : DfsState) (n : DepNode), n ∈ nodes →
      n.id ∈ (detectRun spec nodes st).visited := by
  intro nodes
  induction nodes with
  | nil => intro st n hn; exact absurd hn (List.not_mem_nil n)
  | cons node rest ih =>
    intro st n hn
    rcases List.mem_cons.mp hn with rfl | htail
    · unfold detectRun
      split
      · rename_i hc
        exact detectRun_visited_mono spec rest st (List.mem_of_elem_eq_true hc)
      · have hfuel : cyclesFuel spec = (cyclesFuel spec - 1) + 1 := by
          unfold cyclesFuel
          omega
        apply detectRun_visited_mono spec rest
        rw [hfuel]
        exact dfsGo_visit_self spec _ n.id [n.id] st
    · unfold detectRun
      split
      · exact ih st n htail
      · exact ih _ n htail

set_option maxRecDepth 40000 in
/-- C2 amended. For the three-node cycle fixture `A → B, B → C, C → A`,
`detectCycles` fails with exactly the error
`Circular dependency detected: A → B → C → A`, which names `A`, `B`, `C`
in cycle order; the DFS driver visits every node of any spec (all
connected components), and a cyclic component disconnected from the entry
node is likewise reported. (For larger specs containing this cycle among
other defects, the reported strings need not name `A`, `B`, `C` in cycle
order, per the counterexample.) -/
theorem detectCycles_amended (spec : DepSpec) (n : DepNode) (hn : n ∈ spec.nodes) :
    (detectCycles cyc3Spec).valid = false ∧
    (detectCycles cyc3Spec).errors = ["Circular dependency detected: A → B → C → A"] ∧
    mentionsCycleOrderABC "Circular dependency detected: A → B → C → A" = true ∧
    n.id ∈ (detectCyclesState spec).visited ∧
    (detectCycles cycDiscSpec).valid = false ∧
    (detectCycles cycDiscSpec).errors = ["Circular dependency detected: A → B → C → A"] := by
  refine ⟨by decide, by decide, by decide, ?_, by decide, by decide⟩
  exact detectRun_all_visited spec spec.nodes ⟨[], [], []⟩ n hn

set_option maxRecDepth 40000 in
/-- Witness for C2 (amended) at the fixture spec and its node `A`. -/
theorem detectCycles_amended_witness :
    (detectCycles cyc3Spec).valid = false ∧
    (detectCycles cyc3Spec).errors = ["Circular dependency detected: A → B → C → A"] ∧
    mentionsCycleOrderABC "Circular dependency detected: A → B → C → A" = true ∧
    (DepNode.mk "A" (some ["B"])).id ∈ (detectCyclesState cyc3Spec).visited ∧
    (detectCycles cycDiscSpec).valid = false ∧
    (detectCycles cycDiscSpec).errors = ["Circular dependency detected: A → B → C → A"] :=
  detectCycles_amended cyc3Spec ⟨"A", some ["B"]⟩ (by decide)

end Vega

namespace Vega

/-- If the id set already holds `s` and some later node carries id `s`,
the node loop reports the duplicate. -/
theorem validateNodes_dup_of_mem (s : String) (hs : s ≠ "") :
    ∀ (ns : List ParsedNode) (nodeIds : List String) (index : Nat),
      s ∈ nodeIds → (∃ n ∈ ns, n.id = some s) →
      ∃ err ∈ validateNodes ns nodeIds index,
        err.message = "Duplicate node ID: " ++ s := by
  intro ns
  induction ns with
  | nil =>
    intro nodeIds index _ hex
    rcases hex with ⟨n, hn, _⟩
    exact absurd hn (List.not_mem_nil n)
  | cons node rest ih =>
    intro nodeIds index hset hex
    rcases hex with ⟨n, hn, hid⟩
    rcases List.mem_cons.mp hn with rfl | htail
    · refine ⟨⟨"validation", "Duplicate node ID: " ++ s,
        some ("nodes[" ++ toString index ++ "].id")⟩, ?_, rfl⟩
      have hcont : nodeIds.contains s = true := List.elem_eq_true_of_mem hset
      simp [validateNodes, hid, jsStrTruthy, hs, hcont]
      exact Or.inl hset
    · have hsub : ∃ err ∈ validateNodes rest
          (if !jsStrTruthy node.id then nodeIds else nodeIds ++ [node.id.getD ""])
          (index + 1), err.message = "Duplicate node ID: " ++ s := by
        apply ih _ _ _ ⟨n, htail, hid⟩
        split
        · exact hset
        · exact List.mem_append_left _ hset
      rcases hsub with ⟨err, hmem, hmsg⟩
      refine ⟨err, ?_, hmsg⟩
      simp only [validateNodes]
      exact List.mem_append_right _ hmem

/-- Two nodes with the same (nonempty) id anywhere in the list make the
node loop report `Duplicate node ID`. -/
theorem validateNodes_dup (s : String) (hs : s ≠ "") :
    ∀ (pre : List ParsedNode) (n1 : ParsedNode) (mid : List ParsedNode)
      (n2 : ParsedNode) (post : List ParsedNode) (nodeIds : List String) (index : Nat),
      n1.id = some s → n2.id = some s →
      ∃ err ∈ validateNodes (pre ++ n1 :: mid ++ n2 :: post) nodeIds index,
        err.message = "Duplicate node ID: " ++ s := by
  intro pre
  induction pre with
  | nil =>
    intro n1 mid n2 post nodeIds index h1 h2
    have hsub : ∃ err ∈ validateNodes (mid ++ n2 :: post)
        (if !jsStrTruthy n1.id then nodeIds else nodeIds ++ [n1.id.getD ""])
        (index + 1), err.message = "Duplicate node ID: " ++ s := by
      apply validateNodes_dup_of_mem s hs _ _ _ ?_
        ⟨n2, List.mem_append_right _ (List.mem_cons_self n2 post), h2⟩
      rw [h1]
      have htr : jsStrTruthy (some s) = true := by simp [jsStrTruthy, hs]
      simp [htr]
    rcases hsub with ⟨err, hmem, hmsg⟩
    refine ⟨err, ?_, hmsg⟩
    simp only [List.nil_append, validateNodes]
    exact List.mem_append_right _ hmem
  | cons p0 pre' ih =>
    intro n1 mid n2 post nodeIds index h1 h2
    rcases ih n1 mid n2 post
        (if !jsStrTruthy p0.id then nodeIds else nodeIds ++ [p0.id.getD ""])
        (index + 1) h1 h2 with ⟨err, hmem, hmsg⟩
    refine ⟨err, ?_, hmsg⟩
    simp only [List.cons_append, validateNodes]
    exact List.mem_append_right _ hmem

/-- An edge whose (nonempty) `to` endpoint is not a declared node id makes
the edge loop report `Edge references non-existent node`. -/
theorem validateEdges_dangling (p : ParsedWorkflow) (f : String) (hf : f ≠ "")
    (hnf : f ∉ declaredIds p) :
    ∀ (pre : List ParsedEdge) (e : ParsedEdge) (post : List ParsedEdge) (index : Nat),
      e.toId = some f →
      ∃ err ∈ validateEdges p (pre ++ e :: post) index,
        err.message = "Edge references non-existent node: " ++ f := by
  intro pre
  induction pre with
  | nil =>
    intro e post index he
    refine ⟨⟨"validation", "Edge references non-existent node: " ++ f,
      some ("edges[" ++ toString index ++ "].to")⟩, ?_, rfl⟩
    have hcont : (declaredIds p).contains f = false := by
      rcases h : (declaredIds p).contains f with _ | _
      · rfl
      · exact absurd (List.mem_of_elem_eq_true h) hnf
    simp [validateEdges, he, jsStrTruthy, hf, hcont]
    exact Or.inr (Or.inr (Or.inl hnf))
  | cons e0 pre' ih =>
    intro e post index he
    rcases ih e post (index + 1) he with ⟨err, hmem, hmsg⟩
    refine ⟨err, ?_, hmsg⟩
    simp only [List.cons_append, validateEdges]
    exact List.mem_append_right _ hmem

/-- C4. `validate` accumulates all failures instead of stopping at the
first: a workflow with both a duplicate node id and an edge endpoint that
names no declared node gets an error entry for each defect; and the
`ParseResult` built from the validator has `valid = true` exactly when its
error list is empty. -/
theorem validate_accumulates_all_defects (p q : ParsedWorkflow)
    (pre : List ParsedNode) (n1 : ParsedNode) (mid : List ParsedNode)
    (n2 : ParsedNode) (post : List ParsedNode)
    (epre : List ParsedEdge) (e : ParsedEdge) (epost : List ParsedEdge)
    (s f : String)
    (hnodes : p.nodes = some (pre ++ n1 :: mid ++ n2 :: post))
    (hedges : p.edges = some (epre ++ e :: epost))
    (h1 : n1.id = some s) (h2 : n2.id = some s) (hs : s ≠ "")
    (hef : e.toId = some f) (hf : f ≠ "") (hnf : f ∉ declaredIds p) :
    (∃ err ∈ validate p, err.message = "Duplicate node ID: " ++ s) ∧
    (∃ err ∈ validate p, err.message = "Edge references non-existent node: " ++ f) ∧
    ((parseResultOf q).valid = true ↔ (parseResultOf q).errors = []) := by
  refine ⟨?_, ?_, ?_⟩
  · rcases validateNodes_dup s hs pre n1 mid n2 post [] 0 h1 h2 with ⟨err, hmem, hmsg⟩
    refine ⟨err, ?_, hmsg⟩
    unfold validate
    rw [hnodes, hedges]
    exact List.mem_append_left _ (List.mem_append_right _ hmem)
  · rcases validateEdges_dangling p f hf hnf epre e epost 0 hef with ⟨err, hmem, hmsg⟩
    refine ⟨err, ?_, hmsg⟩
    unfold validate
    rw [hnodes, hedges]
    exact List.mem_append_right _ hmem
  · unfold parseResultOf
    simp [List.length_eq_zero]

/-- A parsed workflow with node ids `taskA`, `taskB`, `taskA` (a duplicate)
and an edge to the undeclared node `ghost`. -/
def badWorkflow : ParsedWorkflow :=
  ⟨some "wf", some "1.0.0",
   some [⟨some "taskA", some "agent-a"⟩, ⟨some "taskB", some "agent-b"⟩,
         ⟨some "taskA", some "agent-c"⟩],
   some [⟨some "taskA", some "ghost"⟩]⟩

/-- Witness for C4 on `badWorkflow`: both defects are reported together. -/
theorem validate_accumulates_all_defects_witness :
    (∃ err ∈ validate badWorkflow, err.message = "Duplicate node ID: " ++ "taskA") ∧
    (∃ err ∈ validate badWorkflow,
      err.message = "Edge references non-existent node: " ++ "ghost") ∧
    ((parseResultOf badWorkflow).valid = true ↔
      (parseResultOf badWorkflow).errors = []) :=
  validate_accumulates_all_defects badWorkflow badWorkflow
    [] ⟨some "taskA", some "agent-a"⟩ [⟨some "taskB", some "agent-b"⟩]
    ⟨some "taskA", some "agent-c"⟩ []
    [] ⟨some "taskA", some "ghost"⟩ []
    "taskA" "ghost" rfl rfl rfl rfl (by decide) rfl (by decide) (by decide)

end Vega
